import Mathlib

/-!
Verification of the conversational REPL script
`ai_agents/langgraph_agents/simple-langgraph-agent/simple-react-agent.py`.

The script wires a one-node LangGraph state graph ("chatbot") to a hosted
chat model and drives it from a console read loop.  We give a shallow
embedding of the custom logic of the file:

* `_set_env`            — the credential-prompt helper (lines 22-36);
* `AgentState` / `add_messages` — the graph state and its reducer
  annotation (lines 47-51); `add_messages` is framework code, embedded
  from its documented behaviour in the source comments ("it appends
  messages to the list, rather than overwriting it");
* `chatbot`             — the single graph node (lines 65-66);
* `stream_graph_updates` — one graph invocation plus printing (lines 85-88);
* `step` / `run`        — the `while True` read loop (lines 90-103).

The remote model client (`llm.invoke`) is abstracted as an oracle
`llm : List Message → Option String` giving the content of the assistant
reply; `none` models the call raising an exception (auth failure, network
error, rate limit).  Reading a line of standard input is modelled by a
`ReadResult`: either a line, or `ReadResult.err` when `input()` raises.
Python `print(a, b)` joins its arguments with a single space, modelled by
`printJoin`.
-/

namespace SimpleReactAgent

/-- Role of a chat message (`HumanMessage` / the model's AI reply). -/
inductive Role where
  | human
  | assistant
  deriving DecidableEq, Repr

/-- One chat message: a role and its text content. -/
structure Message where
  role : Role
  content : String
  deriving DecidableEq, Repr

/-- The `add_messages` reducer annotating `AgentState.messages`.  Modelled
from the source's documentation of the framework function: updates are
appended to the existing list rather than overwriting it. -/
def add_messages (old new : List Message) : List Message :=
  old ++ new

/-- The graph state: a single `messages` key annotated with `add_messages`. -/
structure AgentState where
  messages : List Message
  deriving DecidableEq, Repr

/-- The `chatbot` node: `return {"messages": [llm.invoke(state["messages"])]}`.
The oracle `llm` yields the content of the AI reply produced by
`llm.invoke` on the full message list of the state, or `none` if the
remote call raises. -/
def chatbot (llm : List Message → Option String) (state : AgentState) :
    Option AgentState :=
  (llm state.messages).map fun c => { messages := [{ role := Role.assistant, content := c }] }

/-- Python `print(a, b)`: the two arguments joined by one space. -/
def printJoin (a b : String) : String :=
  a ++ " " ++ b

/-- Result of one `stream_graph_updates` call: either the printed lines
together with the final message list of the invocation, or a failure
carrying the input messages that had been placed in the state before the
node raised. -/
inductive StreamResult where
  | ok (outputs : List String) (finalMessages : List Message)
  | failed (inputMessages : List Message)
  deriving DecidableEq, Repr

/-- `stream_graph_updates(user_input)`: streams the graph on
`{"messages": [HumanMessage(content=user_input)]}`; the single event is the
chatbot node's update, whose last message is printed prefixed by
`"Assistant: "`. -/
def stream_graph_updates (llm : List Message → Option String) (user_input : String) :
    StreamResult :=
  let init : AgentState := { messages := [{ role := Role.human, content := user_input }] }
  match chatbot llm init with
  | some delta =>
      StreamResult.ok
        [printJoin "Assistant: " ((delta.messages.getLastD { role := Role.assistant, content := "" }).content)]
        (add_messages init.messages delta.messages)
  | none => StreamResult.failed init.messages

/-- The exit keywords of line 93: `["exit", "quit", "q"]`. -/
def exitKeywords : List String :=
  ["exit", "quit", "q"]

/-- Python's `str.lower()`: lowercase every character (the exit keywords are
ASCII, where this agrees with Python). -/
def pyLower (s : String) : String :=
  ⟨s.data.map Char.toLower⟩

/-- The exit check of line 93: `user_input.lower() in ["exit", "quit", "q"]`. -/
def isExit (s : String) : Bool :=
  decide (pyLower s ∈ exitKeywords)

/-- The hard-coded fallback question of line 100. -/
def fallbackQuestion : String :=
  "What do you know about LangGraph?"

/-- Outcome of one attempted `input("User: ")` read: a line, or the read
raising (EOF, interrupt, I/O error). -/
inductive ReadResult where
  | ok (s : String)
  | err
  deriving DecidableEq, Repr

/-- How the loop ended (or has not yet ended). -/
inductive ExitKind where
  | pending
  | goodbye
  | fallback
  | abnormal
  deriving DecidableEq, Repr

/-- Observable state of a run of the loop: the messages accumulated across
all graph invocations of the run, the lines printed to standard output, the
number of model invocations, and how the loop ended. -/
structure RunState where
  transcript : List Message
  outputs : List String
  llmCalls : Nat
  exitKind : ExitKind
  deriving DecidableEq, Repr

/-- The `except:` handler of lines 98-103: substitute the fixed fallback
question, echo it, stream it once, and break.  If the fallback turn's own
graph invocation raises, nothing catches it: the run ends abnormally. -/
def doFallback (llm : List Message → Option String) (rs : RunState) : RunState :=
  match stream_graph_updates llm fallbackQuestion with
  | StreamResult.ok outs msgs =>
      { rs with
        outputs := rs.outputs ++ [printJoin "User: " fallbackQuestion] ++ outs,
        transcript := rs.transcript ++ msgs,
        llmCalls := rs.llmCalls + 1,
        exitKind := ExitKind.fallback }
  | StreamResult.failed msgs =>
      { rs with
        outputs := rs.outputs ++ [printJoin "User: " fallbackQuestion],
        transcript := rs.transcript ++ msgs,
        llmCalls := rs.llmCalls + 1,
        exitKind := ExitKind.abnormal }

/-- One iteration of the `while True` loop on one read outcome.  The `try`
block covers the read, the exit check and the graph invocation; any
exception in it falls into `doFallback`.  Once the loop has exited, further
input is ignored. -/
def step (llm : List Message → Option String) (rs : RunState) (r : ReadResult) : RunState :=
  match rs.exitKind with
  | ExitKind.pending =>
      match r with
      | ReadResult.err => doFallback llm rs
      | ReadResult.ok s =>
          if isExit s then
            { rs with outputs := rs.outputs ++ ["Goodbye!"], exitKind := ExitKind.goodbye }
          else
            match stream_graph_updates llm s with
            | StreamResult.ok outs msgs =>
                { rs with
                  transcript := rs.transcript ++ msgs,
                  outputs := rs.outputs ++ outs,
                  llmCalls := rs.llmCalls + 1 }
            | StreamResult.failed msgs =>
                doFallback llm
                  { rs with
                    transcript := rs.transcript ++ msgs,
                    llmCalls := rs.llmCalls + 1 }
  | _ => rs

/-- The loop run over a finite sequence of read outcomes. -/
def run (llm : List Message → Option String) (rs : RunState) (inputs : List ReadResult) :
    RunState :=
  inputs.foldl (step llm) rs

/-- The state at the start of a run: nothing accumulated, loop pending. -/
def initRun : RunState :=
  { transcript := [], outputs := [], llmCalls := 0, exitKind := ExitKind.pending }

/-- A whole run of the loop from process start. -/
def runLoop (llm : List Message → Option String) (inputs : List ReadResult) : RunState :=
  run llm initRun inputs

/-- The assistant reply content the oracle produces for a fresh single
human message, defaulting to the empty string if the call raises. -/
def replyOf (llm : List Message → Option String) (s : String) : String :=
  (llm [{ role := Role.human, content := s }]).getD ""

/-- The messages accumulated by a run over the given non-exit lines when
every model call succeeds: one human and one assistant message per turn,
in order. -/
def turnMsgs (llm : List Message → Option String) : List String → List Message
  | [] => []
  | s :: rest =>
      { role := Role.human, content := s } ::
      { role := Role.assistant, content := replyOf llm s } :: turnMsgs llm rest

/-- A concrete model oracle that raises exactly on the seed of the normal
turn "Hello" and answers every other seed, in particular the fallback
question. -/
def llmC2 : List Message → Option String :=
  fun ms => if ms = [{ role := Role.human, content := "Hello" }] then none else some "resp"

/-- Python truthiness of `os.environ.get(var)` as tested by line 33's
`if not os.environ.get(var)`: `None` (variable unset) and the empty string
are falsy, every other string is truthy. -/
def envTruthy : Option String → Bool
  | none => false
  | some s => decide (s ≠ "")

/-- Observable outcome of one `_set_env` call: the environment afterwards,
the lines printed, and whether the user was prompted (via `getpass`, so the
prompted value is never echoed). -/
structure SetEnvResult where
  env : String → Option String
  printed : List String
  prompted : Bool

/-- The credential helper of lines 22-36.  `promptedValue` models the value
`getpass.getpass` returns if the prompt is reached. -/
def _set_env (env : String → Option String) (var promptedValue : String) : SetEnvResult :=
  if envTruthy (env var) = false then
    { env := fun v => if v = var then some promptedValue else env v,
      printed := [],
      prompted := true }
  else
    { env := env,
      printed := [var ++ " already set"],
      prompted := false }

/-- The environment after the two startup calls of lines 40-41:
`_set_env("OPENAI_API_KEY")` then `_set_env("GROQ_API_KEY")`. -/
def startupEnv (env : String → Option String) (p1 p2 : String) : String → Option String :=
  (_set_env (_set_env env "OPENAI_API_KEY" p1).env "GROQ_API_KEY" p2).env

/-! ### Basic lemmas about the loop -/

theorem run_nil (llm : List Message → Option String) (rs : RunState) :
    run llm rs [] = rs :=
  rfl

theorem run_cons (llm : List Message → Option String) (rs : RunState) (r : ReadResult)
    (inputs : List ReadResult) :
    run llm rs (r :: inputs) = run llm (step llm rs r) inputs :=
  rfl

theorem run_append (llm : List Message → Option String) (rs : RunState)
    (xs ys : List ReadResult) :
    run llm rs (xs ++ ys) = run llm (run llm rs xs) ys :=
  List.foldl_append _ _ _ _

theorem step_exited (llm : List Message → Option String) (rs : RunState) (r : ReadResult)
    (h : rs.exitKind ≠ ExitKind.pending) :
    step llm rs r = rs := by
  cases hek : rs.exitKind <;> simp_all [step]

theorem run_exited (llm : List Message → Option String) (rs : RunState)
    (inputs : List ReadResult) (h : rs.exitKind ≠ ExitKind.pending) :
    run llm rs inputs = rs := by
  induction inputs with
  | nil => rfl
  | cons r rest ih => rw [run_cons, step_exited llm rs r h, ih]

theorem doFallback_ok (llm : List Message → Option String) (rs : RunState) (c : String)
    (hok : llm [{ role := Role.human, content := fallbackQuestion }] = some c) :
    doFallback llm rs =
      { rs with
        outputs := rs.outputs ++ [printJoin "User: " fallbackQuestion, printJoin "Assistant: " c],
        transcript := rs.transcript ++
          [{ role := Role.human, content := fallbackQuestion },
           { role := Role.assistant, content := c }],
        llmCalls := rs.llmCalls + 1,
        exitKind := ExitKind.fallback } := by
  simp [doFallback, stream_graph_updates, chatbot, hok, add_messages]

theorem doFallback_failed (llm : List Message → Option String) (rs : RunState)
    (hfail : llm [{ role := Role.human, content := fallbackQuestion }] = none) :
    doFallback llm rs =
      { rs with
        outputs := rs.outputs ++ [printJoin "User: " fallbackQuestion],
        transcript := rs.transcript ++ [{ role := Role.human, content := fallbackQuestion }],
        llmCalls := rs.llmCalls + 1,
        exitKind := ExitKind.abnormal } := by
  simp [doFallback, stream_graph_updates, chatbot, hfail, add_messages]

theorem doFallback_not_pending (llm : List Message → Option String) (rs : RunState) :
    (doFallback llm rs).exitKind ≠ ExitKind.pending := by
  unfold doFallback
  cases stream_graph_updates llm fallbackQuestion <;> simp

theorem doFallback_not_goodbye (llm : List Message → Option String) (rs : RunState) :
    (doFallback llm rs).exitKind ≠ ExitKind.goodbye := by
  unfold doFallback
  cases stream_graph_updates llm fallbackQuestion <;> simp

theorem transcript_extends_doFallback (llm : List Message → Option String) (rs : RunState) :
    rs.transcript <+: (doFallback llm rs).transcript := by
  unfold doFallback
  cases stream_graph_updates llm fallbackQuestion <;> exact ⟨_, rfl⟩

theorem transcript_extends_step (llm : List Message → Option String) (rs : RunState)
    (r : ReadResult) :
    rs.transcript <+: (step llm rs r).transcript := by
  unfold step
  cases rs.exitKind
  case pending =>
    cases r with
    | err => exact transcript_extends_doFallback llm rs
    | ok s =>
      cases h : isExit s with
      | true =>
          simp only [h, if_true]
          exact ⟨[], by simp⟩
      | false =>
          simp only [h, Bool.false_eq_true, if_false]
          cases stream_graph_updates llm s with
          | ok outs msgs => exact ⟨msgs, rfl⟩
          | failed msgs =>
              exact List.IsPrefix.trans ⟨msgs, rfl⟩ (transcript_extends_doFallback llm
                { transcript := rs.transcript ++ msgs, outputs := rs.outputs,
                  llmCalls := rs.llmCalls + 1, exitKind := ExitKind.pending })
  all_goals exact ⟨[], by simp⟩

theorem transcript_extends_run (llm : List Message → Option String) (rs : RunState)
    (inputs : List ReadResult) :
    rs.transcript <+: (run llm rs inputs).transcript := by
  induction inputs generalizing rs with
  | nil => exact ⟨[], by simp [run]⟩
  | cons r rest ih =>
      exact List.IsPrefix.trans (transcript_extends_step llm rs r) (ih (step llm rs r))

theorem step_ok_success (llm : List Message → Option String) (rs : RunState) (s c : String)
    (hpend : rs.exitKind = ExitKind.pending) (hne : isExit s = false)
    (hok : llm [{ role := Role.human, content := s }] = some c) :
    step llm rs (ReadResult.ok s) =
      { rs with
        transcript := rs.transcript ++
          [{ role := Role.human, content := s }, { role := Role.assistant, content := c }],
        outputs := rs.outputs ++ [printJoin "Assistant: " c],
        llmCalls := rs.llmCalls + 1 } := by
  simp [step, hpend, hne, stream_graph_updates, chatbot, hok, add_messages]

theorem step_ok_failed (llm : List Message → Option String) (rs : RunState) (s : String)
    (hpend : rs.exitKind = ExitKind.pending) (hne : isExit s = false)
    (hfail : llm [{ role := Role.human, content := s }] = none) :
    step llm rs (ReadResult.ok s) =
      doFallback llm
        { rs with
          transcript := rs.transcript ++ [{ role := Role.human, content := s }],
          llmCalls := rs.llmCalls + 1 } := by
  simp [step, hpend, hne, stream_graph_updates, chatbot, hfail]

theorem step_goodbye_iff (llm : List Message → Option String) (rs : RunState) (s : String)
    (hpend : rs.exitKind = ExitKind.pending) :
    (step llm rs (ReadResult.ok s)).exitKind = ExitKind.goodbye ↔ isExit s = true := by
  cases h : isExit s with
  | true => simp [step, hpend, h]
  | false =>
      cases hs : stream_graph_updates llm s with
      | ok outs msgs => simp [step, hpend, h, hs]
      | failed msgs =>
          simp only [step, hpend, h, hs, Bool.false_eq_true, if_false]
          constructor
          · intro hgb; exact absurd hgb (doFallback_not_goodbye llm _)
          · intro hx; simp_all

theorem turnMsgs_length (llm : List Message → Option String) (lines : List String) :
    (turnMsgs llm lines).length = 2 * lines.length := by
  induction lines with
  | nil => simp [turnMsgs]
  | cons s rest ih =>
      simp only [turnMsgs, List.length_cons, ih]
      omega

theorem run_ok_lines (llm : List Message → Option String)
    (hllm : ∀ ms, (llm ms).isSome = true) (lines : List String) :
    ∀ rs : RunState, rs.exitKind = ExitKind.pending →
      (∀ s ∈ lines, isExit s = false) →
      run llm rs (lines.map ReadResult.ok) =
        { rs with
          transcript := rs.transcript ++ turnMsgs llm lines,
          outputs := rs.outputs ++ lines.map (fun s => printJoin "Assistant: " (replyOf llm s)),
          llmCalls := rs.llmCalls + lines.length } := by
  induction lines with
  | nil =>
      intro rs hpend hne
      simp [run, turnMsgs]
  | cons s rest ih =>
      intro rs hpend hne
      have hs : isExit s = false := hne s (List.mem_cons_self s rest)
      have hrest : ∀ t ∈ rest, isExit t = false := fun t ht => hne t (List.mem_cons_of_mem s ht)
      obtain ⟨c, hc⟩ := Option.isSome_iff_exists.mp (hllm [{ role := Role.human, content := s }])
      have hrep : replyOf llm s = c := by simp [replyOf, hc]
      rw [List.map_cons, run_cons, step_ok_success llm rs s c hpend hs hc]
      rw [ih { rs with
          transcript := rs.transcript ++
            [{ role := Role.human, content := s }, { role := Role.assistant, content := c }],
          outputs := rs.outputs ++ [printJoin "Assistant: " c],
          llmCalls := rs.llmCalls + 1 } hpend hrest]
      simp only [turnMsgs, hrep, List.map_cons, List.length_cons, RunState.mk.injEq]
      refine ⟨by simp, by simp, by omega, trivial⟩

/-! ### The claims -/

/-- C1: for every sequence of N human inputs none of which is an exit
keyword, and a model oracle whose calls all succeed, the message list
accumulated across the run after the N turns is exactly one human and one
assistant message per turn in order, has length 2N, and grows monotonically:
the accumulation after any earlier prefix of the turns is a list prefix of
the final accumulation. -/
theorem spec_C1 (llm : List Message → Option String)
    (hllm : ∀ ms, (llm ms).isSome = true)
    (lines : List String) (hne : ∀ s ∈ lines, isExit s = false) :
    (runLoop llm (lines.map ReadResult.ok)).transcript = turnMsgs llm lines ∧
    (runLoop llm (lines.map ReadResult.ok)).transcript.length = 2 * lines.length ∧
    ∀ k : Nat,
      (runLoop llm ((lines.take k).map ReadResult.ok)).transcript <+:
        (runLoop llm (lines.map ReadResult.ok)).transcript := by
  have hmain := run_ok_lines llm hllm lines initRun rfl hne
  have htr : (runLoop llm (lines.map ReadResult.ok)).transcript = turnMsgs llm lines := by
    rw [runLoop, hmain]
    simp [initRun]
  refine ⟨htr, ?_, ?_⟩
  · rw [htr, turnMsgs_length]
  · intro k
    have hsplit : lines.map ReadResult.ok =
        (lines.take k).map ReadResult.ok ++ (lines.drop k).map ReadResult.ok := by
      rw [← List.map_append, List.take_append_drop]
    rw [runLoop, runLoop, hsplit, run_append]
    exact transcript_extends_run llm _ _

/-- Witness for C1 at a concrete two-line conversation. -/
theorem spec_C1_witness :
    (∀ ms, ((fun _ : List Message => some "ok") ms).isSome = true) ∧
    (∀ s ∈ ["Hello", "How are you"], isExit s = false) ∧
    (runLoop (fun _ => some "ok")
        ((["Hello", "How are you"] : List String).map ReadResult.ok)).transcript.length =
      2 * (["Hello", "How are you"] : List String).length :=
  ⟨fun _ => rfl, by decide,
    (spec_C1 (fun _ => some "ok") (fun _ => rfl) ["Hello", "How are you"] (by decide)).2.1⟩

/-- C3: an input line whose lowercasing is one of the exit keywords, read
while the loop is still running, makes the loop print "Goodbye!" and reach
the terminal goodbye state with no model invocation for that line, ignoring
any further input. -/
theorem spec_C3 (llm : List Message → Option String) (rs : RunState) (s : String)
    (rest : List ReadResult) (hpend : rs.exitKind = ExitKind.pending)
    (hkw : pyLower s ∈ exitKeywords) :
    run llm rs (ReadResult.ok s :: rest) =
      { rs with outputs := rs.outputs ++ ["Goodbye!"], exitKind := ExitKind.goodbye } := by
  have hex : isExit s = true := by simpa [isExit] using hkw
  rw [run_cons]
  have hstep : step llm rs (ReadResult.ok s) =
      { rs with outputs := rs.outputs ++ ["Goodbye!"], exitKind := ExitKind.goodbye } := by
    simp [step, hpend, hex]
  rw [hstep, run_exited _ _ _ (by simp)]

/-- Witness for C3: "EXIT" as the very first line of a run. -/
theorem spec_C3_witness :
    (initRun.exitKind = ExitKind.pending ∧ pyLower "EXIT" ∈ exitKeywords) ∧
    run (fun _ => some "x") initRun [ReadResult.ok "EXIT", ReadResult.ok "hello"] =
      { initRun with outputs := initRun.outputs ++ ["Goodbye!"], exitKind := ExitKind.goodbye } :=
  ⟨⟨rfl, by decide⟩,
    spec_C3 (fun _ => some "x") initRun "EXIT" [ReadResult.ok "hello"] rfl (by decide)⟩

/-- C4: if the first read of standard input raises and the model call on
the fallback question succeeds, the run processes exactly one fallback turn
with the fixed question "What do you know about LangGraph?" and exits,
whatever input might follow; and a fallback never leaves the loop running,
so it happens at most once per run. -/
theorem spec_C4 (llm : List Message → Option String) (c : String) (rest : List ReadResult)
    (hok : llm [{ role := Role.human, content := fallbackQuestion }] = some c) :
    run llm initRun (ReadResult.err :: rest) =
      { transcript := [{ role := Role.human, content := fallbackQuestion },
                       { role := Role.assistant, content := c }],
        outputs := [printJoin "User: " fallbackQuestion, printJoin "Assistant: " c],
        llmCalls := 1,
        exitKind := ExitKind.fallback } ∧
    (∀ rs : RunState, (doFallback llm rs).exitKind ≠ ExitKind.pending) := by
  constructor
  · rw [run_cons]
    have hstep : step llm initRun ReadResult.err = doFallback llm initRun := by
      simp [step, initRun]
    rw [hstep, doFallback_ok llm initRun c hok, run_exited _ _ _ (by simp)]
    simp [initRun]
  · intro rs
    exact doFallback_not_pending llm rs

/-- Witness for C4: stdin raises immediately, then (ignored) further input. -/
theorem spec_C4_witness :
    ((fun _ : List Message => some "fb") [{ role := Role.human, content := fallbackQuestion }] =
      some "fb") ∧
    run (fun _ => some "fb") initRun [ReadResult.err, ReadResult.ok "later"] =
      { transcript := [{ role := Role.human, content := fallbackQuestion },
                       { role := Role.assistant, content := "fb" }],
        outputs := [printJoin "User: " fallbackQuestion, printJoin "Assistant: " "fb"],
        llmCalls := 1,
        exitKind := ExitKind.fallback } :=
  ⟨rfl, (spec_C4 (fun _ => some "fb") "fb" [ReadResult.ok "later"] rfl).1⟩

/-- C2 counterexample: with the oracle `llmC2`, the model call of the
normal turn on "Hello" raises, yet the run does not end abnormally: the
bare `except:` catches the failure, a second model call is made for the
fallback question, and the run ends in the fallback exit.  So a failing
remote call is not unhandled for every failing turn. -/
theorem spec_C2_counterexample :
    llmC2 [{ role := Role.human, content := "Hello" }] = none ∧
    isExit "Hello" = false ∧
    (runLoop llmC2 [ReadResult.ok "Hello"]).exitKind = ExitKind.fallback ∧
    (runLoop llmC2 [ReadResult.ok "Hello"]).exitKind ≠ ExitKind.abnormal ∧
    (runLoop llmC2 [ReadResult.ok "Hello"]).llmCalls = 2 := by
  decide

/-- C2 as amended: a remote call failure during a normal turn is caught by
the loop's bare `except:` handler and triggers the one-shot fallback turn;
the run ends abnormally (uncaught propagation) only when the fallback
turn's own remote call fails as well. -/
theorem spec_C2_amended (llm : List Message → Option String) (s : String)
    (rest : List ReadResult) (hne : isExit s = false)
    (hfail : llm [{ role := Role.human, content := s }] = none) :
    ((∃ c, llm [{ role := Role.human, content := fallbackQuestion }] = some c) →
      (run llm initRun (ReadResult.ok s :: rest)).exitKind = ExitKind.fallback) ∧
    (llm [{ role := Role.human, content := fallbackQuestion }] = none →
      (run llm initRun (ReadResult.ok s :: rest)).exitKind = ExitKind.abnormal) := by
  have hstep := step_ok_failed llm initRun s rfl hne hfail
  constructor
  · rintro ⟨c, hc⟩
    rw [run_cons, hstep, doFallback_ok llm _ c hc, run_exited _ _ _ (by simp)]
  · intro hc
    rw [run_cons, hstep, doFallback_failed llm _ hc, run_exited _ _ _ (by simp)]

/-- Witness for the amended C2: `llmC2` fails on "Hello" but answers the
fallback question, and the run ends in the fallback exit. -/
theorem spec_C2_amended_witness :
    isExit "Hello" = false ∧
    llmC2 [{ role := Role.human, content := "Hello" }] = none ∧
    (run llmC2 initRun [ReadResult.ok "Hello"]).exitKind = ExitKind.fallback :=
  ⟨by decide, by decide,
    (spec_C2_amended llmC2 "Hello" [] (by decide) (by decide)).1 ⟨"resp", by decide⟩⟩

/-- C5: on a non-exit input line s whose model call returns content c, the
graph is invoked on the state holding exactly the human message s; the
chatbot node produces exactly one new assistant message whose content is
the model call's answer on the whole input message sequence; the turn
appends the human and that assistant message, and prints the reply content
on a line beginning with "Assistant:". -/
theorem spec_C5 (llm : List Message → Option String) (rs : RunState) (s c : String)
    (hpend : rs.exitKind = ExitKind.pending) (hne : isExit s = false)
    (hok : llm [{ role := Role.human, content := s }] = some c) :
    chatbot llm { messages := [{ role := Role.human, content := s }] } =
      some { messages := [{ role := Role.assistant, content := c }] } ∧
    stream_graph_updates llm s =
      StreamResult.ok [printJoin "Assistant: " c]
        [{ role := Role.human, content := s }, { role := Role.assistant, content := c }] ∧
    step llm rs (ReadResult.ok s) =
      { rs with
        transcript := rs.transcript ++
          [{ role := Role.human, content := s }, { role := Role.assistant, content := c }],
        outputs := rs.outputs ++ [printJoin "Assistant: " c],
        llmCalls := rs.llmCalls + 1 } ∧
    "Assistant:".data <+: (printJoin "Assistant: " c).data := by
  refine ⟨?_, ?_, step_ok_success llm rs s c hpend hne hok, ?_⟩
  · simp [chatbot, hok]
  · simp [stream_graph_updates, chatbot, hok, add_messages]
  · exact ⟨' ' :: ' ' :: c.data, rfl⟩

/-- Witness for C5 on the spec's "Hello" scenario. -/
theorem spec_C5_witness :
    initRun.exitKind = ExitKind.pending ∧
    isExit "Hello" = false ∧
    ((fun _ : List Message => some "Hi there") [{ role := Role.human, content := "Hello" }] =
      some "Hi there") ∧
    stream_graph_updates (fun _ => some "Hi there") "Hello" =
      StreamResult.ok [printJoin "Assistant: " "Hi there"]
        [{ role := Role.human, content := "Hello" },
         { role := Role.assistant, content := "Hi there" }] :=
  ⟨rfl, by decide, rfl,
    (spec_C5 (fun _ => some "Hi there") initRun "Hello" "Hi there" rfl (by decide) rfl).2.1⟩

/-- C6: state merging is append-only: the `add_messages` reducer
concatenates the update after the existing list, so the old list is a
prefix of the merged one; consequently, over any run of the loop, the
accumulated message list is only ever extended, and every message already
accumulated stays unchanged at its position. -/
theorem spec_C6 (llm : List Message → Option String) (rs : RunState)
    (inputs : List ReadResult) :
    (∀ old new : List Message, add_messages old new = old ++ new ∧
      old <+: add_messages old new) ∧
    rs.transcript <+: (run llm rs inputs).transcript ∧
    (∀ i : Nat, i < rs.transcript.length →
      (run llm rs inputs).transcript[i]? = rs.transcript[i]?) := by
  refine ⟨fun old new => ⟨rfl, ⟨new, rfl⟩⟩, transcript_extends_run llm rs inputs, ?_⟩
  intro i hi
  obtain ⟨t, ht⟩ := transcript_extends_run llm rs inputs
  rw [← ht, List.getElem?_append_left hi]

/-- Witness for C6: a message already accumulated before a turn is still at
index 0 after the turn. -/
theorem spec_C6_witness :
    (0 : Nat) < ([{ role := Role.human, content := "m" }] : List Message).length ∧
    (run (fun _ => some "x")
        { transcript := [{ role := Role.human, content := "m" }], outputs := [],
          llmCalls := 0, exitKind := ExitKind.pending }
        [ReadResult.ok "hi"]).transcript[0]? =
      ({ transcript := [{ role := Role.human, content := "m" }], outputs := [],
         llmCalls := 0, exitKind := ExitKind.pending } : RunState).transcript[0]? :=
  ⟨by decide,
    (spec_C6 (fun _ => some "x")
      { transcript := [{ role := Role.human, content := "m" }], outputs := [],
        llmCalls := 0, exitKind := ExitKind.pending }
      [ReadResult.ok "hi"]).2.2 0 (by decide)⟩

theorem set_env_frame (env : String → Option String) (var promptedValue v : String)
    (hv : v ≠ var) :
    (_set_env env var promptedValue).env v = env v := by
  by_cases hc : envTruthy (env var) = false <;> simp [_set_env, hc, hv]

/-- C7: `_set_env` prompts (via `getpass`, not echoed) exactly when the
variable is unset or empty, setting it to the prompted value; when the
variable already has a non-empty value it is left unchanged and only a
notice is printed; no other variable is ever modified, in particular the
startup pair of calls touches nothing besides the two API key variables. -/
theorem spec_C7 (env : String → Option String) (var promptedValue : String) :
    ((env var = none ∨ env var = some "") ↔ envTruthy (env var) = false) ∧
    (envTruthy (env var) = false →
      (_set_env env var promptedValue).env var = some promptedValue ∧
      (_set_env env var promptedValue).prompted = true ∧
      (_set_env env var promptedValue).printed = []) ∧
    (envTruthy (env var) = true →
      (_set_env env var promptedValue).env = env ∧
      (_set_env env var promptedValue).prompted = false ∧
      (_set_env env var promptedValue).printed = [var ++ " already set"]) ∧
    (∀ v, v ≠ var → (_set_env env var promptedValue).env v = env v) ∧
    (∀ p1 p2 v, v ≠ "OPENAI_API_KEY" → v ≠ "GROQ_API_KEY" →
      startupEnv env p1 p2 v = env v) := by
  refine ⟨?_, ?_, ?_, fun v hv => set_env_frame env var promptedValue v hv, ?_⟩
  · cases h : env var <;> simp [envTruthy]
  · intro h
    simp [_set_env, h]
  · intro h
    simp [_set_env, h]
  · intro p1 p2 v h1 h2
    rw [startupEnv, set_env_frame _ _ _ _ h2, set_env_frame _ _ _ _ h1]

/-- Witness for C7: an initially empty environment prompts for and sets
OPENAI_API_KEY while leaving GROQ_API_KEY untouched. -/
theorem spec_C7_witness :
    envTruthy ((fun _ : String => (none : Option String)) "OPENAI_API_KEY") = false ∧
    "GROQ_API_KEY" ≠ "OPENAI_API_KEY" ∧
    (_set_env (fun _ => none) "OPENAI_API_KEY" "sk-test").env "OPENAI_API_KEY" =
      some "sk-test" ∧
    (_set_env (fun _ => none) "OPENAI_API_KEY" "sk-test").env "GROQ_API_KEY" =
      (fun _ : String => (none : Option String)) "GROQ_API_KEY" := by
  refine ⟨by decide, by decide, ?_, ?_⟩
  · exact ((spec_C7 (fun _ => none) "OPENAI_API_KEY" "sk-test").2.1 (by decide)).1
  · exact (spec_C7 (fun _ => none) "OPENAI_API_KEY" "sk-test").2.2.2.1 "GROQ_API_KEY" (by decide)

/-- C8: whether a turn of the loop terminates with the farewell is decided
by the exit check alone: it holds exactly when `isExit` holds of the line,
for any model oracle and any pending loop state, so the decision is
deterministic and independent of the Conversation State. -/
theorem spec_C8 (llm llm2 : List Message → Option String) (rs rs2 : RunState) (s : String)
    (hpend : rs.exitKind = ExitKind.pending) (hpend2 : rs2.exitKind = ExitKind.pending) :
    ((step llm rs (ReadResult.ok s)).exitKind = ExitKind.goodbye ↔ isExit s = true) ∧
    ((step llm rs (ReadResult.ok s)).exitKind = ExitKind.goodbye ↔
      (step llm2 rs2 (ReadResult.ok s)).exitKind = ExitKind.goodbye) :=
  ⟨step_goodbye_iff llm rs s hpend,
    (step_goodbye_iff llm rs s hpend).trans (step_goodbye_iff llm2 rs2 s hpend2).symm⟩

/-- Witness for C8: the same terminating input "quit" terminates from two
different loop states under two different oracles. -/
theorem spec_C8_witness :
    initRun.exitKind = ExitKind.pending ∧
    ({ transcript := [{ role := Role.human, content := "m" }], outputs := ["x"],
       llmCalls := 3, exitKind := ExitKind.pending } : RunState).exitKind = ExitKind.pending ∧
    ((step (fun _ => some "a") initRun (ReadResult.ok "quit")).exitKind = ExitKind.goodbye ↔
      (step (fun _ => none)
          { transcript := [{ role := Role.human, content := "m" }], outputs := ["x"],
            llmCalls := 3, exitKind := ExitKind.pending }
          (ReadResult.ok "quit")).exitKind = ExitKind.goodbye) :=
  ⟨rfl, rfl,
    (spec_C8 (fun _ => some "a") (fun _ => none) initRun
      { transcript := [{ role := Role.human, content := "m" }], outputs := ["x"],
        llmCalls := 3, exitKind := ExitKind.pending } "quit" rfl rfl).2⟩

/-- C9: a line terminates the loop exactly when its lowercasing is one of
"exit", "quit", "q" whole; the empty line, a keyword with trailing
whitespace, and a sentence containing a keyword do not terminate, while
mixed case does; every non-terminating line is forwarded to the graph as a
human message: the model is invoked once more and the human message is
appended to the accumulation, with the loop not in the goodbye state. -/
theorem spec_C9 (llm : List Message → Option String) (rs : RunState) (s t : String)
    (hpend : rs.exitKind = ExitKind.pending) (hne : isExit t = false) :
    (isExit s = true ↔ pyLower s ∈ exitKeywords) ∧
    isExit "" = false ∧
    isExit "exit " = false ∧
    isExit "please exit" = false ∧
    isExit "Quit" = true ∧
    rs.transcript ++ [{ role := Role.human, content := t }] <+:
      (step llm rs (ReadResult.ok t)).transcript ∧
    rs.llmCalls + 1 ≤ (step llm rs (ReadResult.ok t)).llmCalls ∧
    (step llm rs (ReadResult.ok t)).exitKind ≠ ExitKind.goodbye := by
  refine ⟨by simp [isExit], by decide, by decide, by decide, by decide, ?_, ?_, ?_⟩
  · cases hc : llm [{ role := Role.human, content := t }] with
    | some c =>
        rw [step_ok_success llm rs t c hpend hne hc]
        exact ⟨[{ role := Role.assistant, content := c }], by simp⟩
    | none =>
        rw [step_ok_failed llm rs t hpend hne hc]
        exact transcript_extends_doFallback llm
          { rs with
            transcript := rs.transcript ++ [{ role := Role.human, content := t }],
            llmCalls := rs.llmCalls + 1 }
  · cases hc : llm [{ role := Role.human, content := t }] with
    | some c =>
        rw [step_ok_success llm rs t c hpend hne hc]
    | none =>
        rw [step_ok_failed llm rs t hpend hne hc]
        unfold doFallback
        cases stream_graph_updates llm fallbackQuestion <;> simp
  · intro hgb
    have := (step_goodbye_iff llm rs t hpend).mp hgb
    simp [hne] at this

/-- Witness for C9: the non-exit line "tell me a joke" is forwarded. -/
theorem spec_C9_witness :
    initRun.exitKind = ExitKind.pending ∧
    isExit "tell me a joke" = false ∧
    initRun.transcript ++ [{ role := Role.human, content := "tell me a joke" }] <+:
      (step (fun _ => some "ok") initRun (ReadResult.ok "tell me a joke")).transcript :=
  ⟨rfl, by decide,
    (spec_C9 (fun _ => some "ok") initRun "EXIT" "tell me a joke" rfl
      (by decide)).2.2.2.2.2.1⟩

/-- C10: the bare `except:` covers the whole turn body: a read failure and
a model-call failure during a normal turn both fall into the same fallback
(`doFallback`), which asks the fixed question once and leaves the loop; the
run ends in the fallback exit if the fallback's own model call succeeds,
and abnormally — the exception is uncaught — if that call fails too. -/
theorem spec_C10 (llm : List Message → Option String) (rs : RunState) (s : String)
    (hpend : rs.exitKind = ExitKind.pending) (hne : isExit s = false)
    (hfail : llm [{ role := Role.human, content := s }] = none) :
    step llm rs ReadResult.err = doFallback llm rs ∧
    step llm rs (ReadResult.ok s) =
      doFallback llm
        { rs with
          transcript := rs.transcript ++ [{ role := Role.human, content := s }],
          llmCalls := rs.llmCalls + 1 } ∧
    (∀ c, llm [{ role := Role.human, content := fallbackQuestion }] = some c →
      (doFallback llm rs).exitKind = ExitKind.fallback) ∧
    (llm [{ role := Role.human, content := fallbackQuestion }] = none →
      (doFallback llm rs).exitKind = ExitKind.abnormal) := by
  refine ⟨by simp [step, hpend], step_ok_failed llm rs s hpend hne hfail, ?_, ?_⟩
  · intro c hc
    rw [doFallback_ok llm rs c hc]
  · intro hc
    rw [doFallback_failed llm rs hc]

/-- Witness for C10: a model failure on "Hello" is handled by the same
fallback as a read failure, and the fallback succeeds under `llmC2`. -/
theorem spec_C10_witness :
    initRun.exitKind = ExitKind.pending ∧
    isExit "Hello" = false ∧
    llmC2 [{ role := Role.human, content := "Hello" }] = none ∧
    llmC2 [{ role := Role.human, content := fallbackQuestion }] = some "resp" ∧
    (doFallback llmC2 initRun).exitKind = ExitKind.fallback :=
  ⟨rfl, by decide, by decide, by decide,
    (spec_C10 llmC2 initRun "Hello" rfl (by decide) (by decide)).2.2.1 "resp" (by decide)⟩

end SimpleReactAgent
